import Mathlib

/-!
Verification of `govc/vm/customize.go` (govmomi): the `vm.customize` command
handler.  The command collects CLI flags, resolves a guest-customization
specification (fresh, or fetched by name from the spec manager), mutates it
according to the flags, and submits it via the VM's `Customize` operation.

The embedding below translates the `Run` method and the parts of the
`vim25/types` object model it touches.  External collaborators (the spec
manager, the VM handle, the task wait) are modelled as parameters; the
wire protocol and task polling are out of scope, so a successful run is
represented by the final specification handed to `Customize`.
-/

/-- Host-name generators used by the command: `CustomizationVirtualMachineName`
(`vmName`), `CustomizationPrefixName` with its `Base` field (`pfxName`), and
`CustomizationFixedName` with its `Name` field (`fixedName`). -/
inductive NameGen
  | vmName
  | pfxName (base : String)
  | fixedName (name : String)
deriving DecidableEq, Repr

/-- Model of `types.CustomizationLinuxPrep`, restricted to the fields the command touches.
`HostName` is a pointer in Go, hence `Option`. -/
structure LinuxPrep where
  hostName : Option NameGen
  domain : String
  timeZone : String
deriving DecidableEq, Repr

/-- Model of the `types.CustomizationGuiUnattended` fields the command touches. -/
structure GuiUnattended where
  autoLogon : Bool
  autoLogonCount : Int
  timeZone : Int
deriving DecidableEq, Repr

/-- Model of `types.CustomizationUserData`, restricted to `ComputerName` (a pointer). -/
structure UserData where
  computerName : Option NameGen
deriving DecidableEq, Repr

/-- Model of `types.CustomizationIdentification`, restricted to `JoinDomain`. -/
structure Identification where
  joinDomain : String
deriving DecidableEq, Repr

/-- Model of `types.CustomizationSysprep`, restricted to the fields the command touches. -/
structure Sysprep where
  guiUnattended : GuiUnattended
  userData : UserData
  identification : Identification
deriving DecidableEq, Repr

/-- The `spec.Identity` interface value.  The command only type-asserts for
`*CustomizationSysprep` and `*CustomizationLinuxPrep`; any other implementation
of the interface carried by a stored specification (for example
`CustomizationSysprexText`, or a nil interface) is collapsed into `other`,
for which both type assertions yield a nil pointer. -/
inductive Identity
  | linuxPrep (lp : LinuxPrep)
  | sysprep (sp : Sysprep)
  | other
deriving DecidableEq, Repr

/-- The address generator stored in `nic.Adapter.Ip`:
`CustomizationDhcpIpGenerator` carries no data, `CustomizationFixedIp` carries
the `IpAddress` string. -/
inductive IpGen
  | dhcp
  | fixedIp (ipAddress : String)
deriving DecidableEq, Repr

/-- Model of the `types.CustomizationIPSettings` fields the command touches.  `Ip` is a
pointer to an address-generator interface value, hence `Option`. -/
structure IPSettings where
  ip : Option IpGen
  subnetMask : String
  gateway : List String
  dnsServerList : List String
deriving DecidableEq, Repr

/-- Model of `types.CustomizationAdapterMapping`. -/
structure AdapterMapping where
  macAddress : String
  adapter : IPSettings
deriving DecidableEq, Repr

/-- Model of `types.CustomizationGlobalIPSettings`, restricted to `DnsServerList`. -/
structure GlobalIPSettings where
  dnsServerList : List String
deriving DecidableEq, Repr

/-- Model of `types.CustomizationSpec`, restricted to the fields the command touches. -/
structure CustomizationSpec where
  identity : Identity
  globalIPSettings : GlobalIPSettings
  nicSettingMap : List AdapterMapping
deriving DecidableEq, Repr

/-- The zero value of `CustomizationAdapterMapping`, as produced by
`make([]types.CustomizationAdapterMapping, n)`. -/
def freshNic : AdapterMapping :=
  { macAddress := ""
    adapter := { ip := none, subnetMask := "", gateway := [], dnsServerList := [] } }

/-- The flag bundle of the `customize` struct.  `pfxBase` is `prefix.Base`,
`hostName` is `host.Name`; the repeatable flags are `flags.StringList` values
in declaration order. -/
structure Customize where
  alc : Int
  pfxBase : String
  tz : String
  domain : String
  hostName : String
  mac : List String
  ip : List String
  gateway : List String
  netmask : List String
  dnsserver : List String
  kind : String
deriving DecidableEq, Repr

/-- Model of the item `object.CustomizationSpecManager.GetCustomizationSpec` returns a
`CustomizationSpecItem`; the command reads its `Spec` field. -/
structure CustomizationSpecItem where
  spec : CustomizationSpec

/-- The external spec manager, modelled by the two calls the command makes;
an `Except.error` models a transport or API error from the client library. -/
structure SpecManager where
  doesExist : String → Except String Bool
  getSpec : String → Except String CustomizationSpecItem

/-- The ways `Run` can terminate short of calling `vm.Customize`:
`help` is `flag.ErrHelp`, `err` a returned error, `nilPanic` a nil-pointer
dereference (a Go runtime panic, not an error return). -/
inductive Failure
  | help
  | err (msg : String)
  | nilPanic
deriving DecidableEq, Repr

/-- The observable outcome of `Run`: a failure, or the specification value
passed to `vm.Customize` (task submission and `task.Wait` are delegated to
the external library and out of scope). -/
inductive RunResult
  | help
  | err (msg : String)
  | nilPanic
  | submitted (spec : CustomizationSpec)
deriving DecidableEq, Repr

/-- Map a pipeline failure to the command outcome. -/
def Failure.toResult : Failure → RunResult
  | .help => .help
  | .err m => .err m
  | .nilPanic => .nilPanic

/-- Result of the `cmd.VirtualMachineFlag.VirtualMachine()` prelude:
an error, a nil VM (which `Run` turns into `flag.ErrHelp`), or a usable VM. -/
inductive VmResolution
  | vmErr (msg : String)
  | vmMissing
  | vmFound
deriving DecidableEq, Repr

/-- The message of `fmt.Errorf("specification %q does not exist", name)`. -/
def notExistMsg (name : String) : String :=
  "specification \"" ++ name ++ "\" does not exist"

/-- The message of
`fmt.Errorf("%d -ip specified, spec %q has %d", len(cmd.ip), name, len(spec.NicSettingMap))`. -/
def ipCountMsg (n : Nat) (name : String) (slots : Nat) : String :=
  toString n ++ " -ip specified, spec \"" ++ name ++ "\" has " ++ toString slots

/-- The message of `fmt.Errorf("converting -tz=%q: %s", cmd.tz, err)`; the
trailing `%s` (the `strconv` error text) is summarised, the command only
requires it to be a parse error naming the value. -/
def tzErrMsg (tz : String) : String :=
  "converting -tz=\"" ++ tz ++ "\": invalid 32-bit hex value"

/-- Value of a hexadecimal digit, as accepted by `strconv.ParseInt` base 16. -/
def hexVal (c : Char) : Option Nat :=
  if '0' ≤ c ∧ c ≤ '9' then some (c.toNat - '0'.toNat)
  else if 'a' ≤ c ∧ c ≤ 'f' then some (10 + c.toNat - 'a'.toNat)
  else if 'A' ≤ c ∧ c ≤ 'F' then some (10 + c.toNat - 'A'.toNat)
  else none

/-- Accumulate hexadecimal digits left to right; `none` on a non-digit. -/
def hexAccum : List Char → Nat → Option Nat
  | [], acc => some acc
  | c :: cs, acc =>
    match hexVal c with
    | some d => hexAccum cs (16 * acc + d)
    | none => none

/-- Model of `strconv.ParseInt(s, 16, 32)` as a partial function: an optional sign,
then one or more hex digits (base 16 admits no `0x` prefix and no
underscores), and the value must fit a signed 32-bit integer; `none` models
any non-nil error (invalid syntax or out of range). -/
def parseHex32 (s : String) : Option Int :=
  let signed : Bool × List Char :=
    match s.data with
    | '+' :: cs => (false, cs)
    | '-' :: cs => (true, cs)
    | cs => (false, cs)
  match signed with
  | (neg, ds) =>
    if ds.isEmpty then none
    else
      match hexAccum ds 0 with
      | none => none
      | some n =>
        let v : Int := if neg then -(n : Int) else (n : Int)
        if v < -2147483648 ∨ 2147483647 < v then none else some v

/-- Truncation of a Go `int` to `int32`, as in `int32(cmd.alc)`. -/
def toInt32 (x : Int) : Int :=
  let r := x % 4294967296
  if r < 2147483648 then r else r - 4294967296

/-- The `sysprep, isWindows := spec.Identity.(*types.CustomizationSysprep)`
type assertion: true exactly when the identity is the sysprep variant. -/
def isWindows (spec : CustomizationSpec) : Bool :=
  match spec.identity with
  | .sysprep _ => true
  | _ => false

/-- Mutation through the `linprep` pointer: a nil dereference (runtime panic)
when the identity is not the Linux-prep variant. -/
def withLinprep (spec : CustomizationSpec) (f : LinuxPrep → LinuxPrep) :
    Except Failure CustomizationSpec :=
  match spec.identity with
  | .linuxPrep lp => .ok { spec with identity := .linuxPrep (f lp) }
  | _ => .error .nilPanic

/-- Mutation through the `sysprep` pointer: a nil dereference when the
identity is not the sysprep variant (unreachable under the `isWindows`
guards of the command). -/
def withSysprep (spec : CustomizationSpec) (f : Sysprep → Sysprep) :
    Except Failure CustomizationSpec :=
  match spec.identity with
  | .sysprep sp => .ok { spec with identity := .sysprep (f sp) }
  | _ => .error .nilPanic

/-- Steps 113-132 and 134-150 of `Run`: with no NAME argument build a fresh
specification with one adapter slot per `-ip` value and the identity selected
by `-type` (anything but `Linux`/`Windows` is `flag.ErrHelp`); with a NAME,
consult the manager, failing with `notExistMsg` when absent and propagating
lookup errors unchanged. -/
def resolveSpec (cmd : Customize) (name : String) (m : SpecManager) :
    Except Failure CustomizationSpec :=
  if name = "" then
    let nics := List.replicate cmd.ip.length freshNic
    match cmd.kind with
    | "Linux" =>
      .ok { identity := .linuxPrep { hostName := some .vmName, domain := "", timeZone := "" }
            globalIPSettings := { dnsServerList := [] }
            nicSettingMap := nics }
    | "Windows" =>
      .ok { identity := .sysprep
              { guiUnattended := { autoLogon := false, autoLogonCount := 0, timeZone := 0 }
                userData := { computerName := some .vmName }
                identification := { joinDomain := "" } }
            globalIPSettings := { dnsServerList := [] }
            nicSettingMap := nics }
    | _ => .error .help
  else
    match m.doesExist name with
    | .error e => .error (.err e)
    | .ok false => .error (.err (notExistMsg name))
    | .ok true =>
      match m.getSpec name with
      | .error e => .error (.err e)
      | .ok item => .ok item.spec

/-- Lines 152-154: fail when more `-ip` values were given than the resolved
specification has adapter slots. -/
def validateIpCount (cmd : Customize) (name : String) (spec : CustomizationSpec) :
    Except Failure CustomizationSpec :=
  if spec.nicSettingMap.length < cmd.ip.length then
    .error (.err (ipCountMsg cmd.ip.length name spec.nicSettingMap.length))
  else .ok spec

/-- Lines 158-165: `-domain` goes to `sysprep.Identification.JoinDomain` on
Windows and to `linprep.Domain` otherwise; `w` is the `isWindows` flag
computed once after resolution. -/
def applyDomain (cmd : Customize) (w : Bool) (spec : CustomizationSpec) :
    Except Failure CustomizationSpec :=
  if cmd.domain = "" then .ok spec
  else if w then
    withSysprep spec fun sp => { sp with identification := { joinDomain := cmd.domain } }
  else
    withLinprep spec fun lp => { lp with domain := cmd.domain }

/-- Lines 167-174: `-dns-server` values, each split on commas, are appended to
the global DNS list, but only when the identity is not Windows. -/
def applyGlobalDns (cmd : Customize) (w : Bool) (spec : CustomizationSpec) :
    CustomizationSpec :=
  if cmd.dnsserver.length ≠ 0 then
    if ¬ w then
      { spec with globalIPSettings :=
          { dnsServerList :=
              cmd.dnsserver.foldl (fun acc s => acc ++ s.splitOn ",")
                spec.globalIPSettings.dnsServerList } }
    else spec
  else spec

/-- Lines 176-182: `-prefix` installs a `CustomizationPrefixName` generator as
the computer name (Windows) or host name (Linux). -/
def applyPfx (cmd : Customize) (w : Bool) (spec : CustomizationSpec) :
    Except Failure CustomizationSpec :=
  if cmd.pfxBase = "" then .ok spec
  else if w then
    withSysprep spec fun sp => { sp with userData := { computerName := some (.pfxName cmd.pfxBase) } }
  else
    withLinprep spec fun lp => { lp with hostName := some (.pfxName cmd.pfxBase) }

/-- Lines 184-190: `-name` installs a `CustomizationFixedName` in the same
field, after (and therefore over) any `-prefix` generator. -/
def applyHost (cmd : Customize) (w : Bool) (spec : CustomizationSpec) :
    Except Failure CustomizationSpec :=
  if cmd.hostName = "" then .ok spec
  else if w then
    withSysprep spec fun sp => { sp with userData := { computerName := some (.fixedName cmd.hostName) } }
  else
    withLinprep spec fun lp => { lp with hostName := some (.fixedName cmd.hostName) }

/-- Lines 192-198: a nonzero `-auto-login` is Windows-only; on Windows it sets
`AutoLogon` and `AutoLogonCount` (the latter through an `int32` cast). -/
def applyAutoLogon (cmd : Customize) (w : Bool) (spec : CustomizationSpec) :
    Except Failure CustomizationSpec :=
  if cmd.alc ≠ 0 then
    if ¬ w then .error (.err "option '-auto-login' is Windows only")
    else
      withSysprep spec fun sp =>
        { sp with guiUnattended :=
            { sp.guiUnattended with autoLogon := true, autoLogonCount := toInt32 cmd.alc } }
  else .ok spec

/-- Lines 200-210: `-tz` is a signed base-16 32-bit index on Windows (with the
descriptive error on parse failure) and a verbatim string on Linux. -/
def applyTz (cmd : Customize) (w : Bool) (spec : CustomizationSpec) :
    Except Failure CustomizationSpec :=
  if cmd.tz = "" then .ok spec
  else if w then
    match parseHex32 cmd.tz with
    | none => .error (.err (tzErrMsg cmd.tz))
    | some v =>
      withSysprep spec fun sp =>
        { sp with guiUnattended := { sp.guiUnattended with timeZone := v } }
  else
    withLinprep spec fun lp => { lp with timeZone := cmd.tz }

/-- The body of the per-adapter loop (lines 212-235) for index `i` with
`-ip` value `ip`: set the address generator, then netmask / MAC / gateway
when the positional lists reach index `i`, then per-adapter DNS on Windows. -/
def applyNic (cmd : Customize) (w : Bool) (i : Nat) (ip : String)
    (nic : AdapterMapping) : AdapterMapping :=
  let nic :=
    { nic with adapter :=
        { nic.adapter with ip := some (if ip = "dhcp" then .dhcp else .fixedIp ip) } }
  let nic :=
    if i < cmd.netmask.length then
      { nic with adapter := { nic.adapter with subnetMask := cmd.netmask.getD i "" } }
    else nic
  let nic :=
    if i < cmd.mac.length then { nic with macAddress := cmd.mac.getD i "" } else nic
  let nic :=
    if i < cmd.gateway.length then
      { nic with adapter := { nic.adapter with gateway := (cmd.gateway.getD i "").splitOn "," } }
    else nic
  if w then
    if i < cmd.dnsserver.length then
      { nic with adapter := { nic.adapter with dnsServerList := (cmd.dnsserver.getD i "").splitOn "," } }
    else nic
  else nic

/-- The loop `for i, ip := range cmd.ip`, walking the `-ip` values alongside
the adapter slots (validation ensures the slots are at least as many). -/
def applyNicsAux (cmd : Customize) (w : Bool) :
    Nat → List String → List AdapterMapping → List AdapterMapping
  | _, [], nics => nics
  | _, _ :: _, [] => []
  | i, ip :: ips, nic :: nics =>
    applyNic cmd w i ip nic :: applyNicsAux cmd w (i + 1) ips nics

/-- Lines 212-235 as a whole: rewrite the adapter-mapping list. -/
def applyNics (cmd : Customize) (w : Bool) (spec : CustomizationSpec) :
    CustomizationSpec :=
  { spec with nicSettingMap := applyNicsAux cmd w 0 cmd.ip spec.nicSettingMap }

/-- Lines 156-210: the scalar-flag mutations between validation and the
per-adapter loop, in source order. -/
def applyMid (cmd : Customize) (w : Bool) (spec : CustomizationSpec) :
    Except Failure CustomizationSpec :=
  match applyDomain cmd w spec with
  | .error f => .error f
  | .ok spec =>
    match applyPfx cmd w (applyGlobalDns cmd w spec) with
    | .error f => .error f
    | .ok spec =>
      match applyHost cmd w spec with
      | .error f => .error f
      | .ok spec =>
        match applyAutoLogon cmd w spec with
        | .error f => .error f
        | .ok spec => applyTz cmd w spec

/-- Lines 156-235: everything after validation.  `isWindows` is computed once
from the resolved identity, exactly as the two type assertions are. -/
def applyFlags (cmd : Customize) (spec : CustomizationSpec) :
    Except Failure CustomizationSpec :=
  let w := isWindows spec
  Except.map (applyNics cmd w) (applyMid cmd w spec)

/-- The specification pipeline of `Run` from `name := f.Arg(0)` to the value
passed to `vm.Customize`. -/
def runSpecPipeline (cmd : Customize) (name : String) (m : SpecManager) :
    Except Failure CustomizationSpec :=
  match resolveSpec cmd name m with
  | .error f => .error f
  | .ok spec =>
    match validateIpCount cmd name spec with
    | .error f => .error f
    | .ok spec => applyFlags cmd spec

/-- The whole `Run` method: the VM prelude, then the specification pipeline;
a surviving specification is submitted. -/
def run (vm : VmResolution) (cmd : Customize) (name : String) (m : SpecManager) :
    RunResult :=
  match vm with
  | .vmErr e => .err e
  | .vmMissing => .help
  | .vmFound =>
    match runSpecPipeline cmd name m with
    | .error f => f.toResult
    | .ok spec => .submitted spec

/-- Substring containment at the character level: `sub` occurs inside `s`. -/
def containsSub (s sub : String) : Prop :=
  ∃ a b : List Char, s.data = a ++ sub.data ++ b

/-- The host-name field the command writes through `-prefix` and `-name`:
`linprep.HostName` for the Linux-prep identity, `sysprep.UserData.ComputerName`
for the sysprep identity. -/
def hostNameFieldOf (spec : CustomizationSpec) : Option NameGen :=
  match spec.identity with
  | .linuxPrep lp => lp.hostName
  | .sysprep sp => sp.userData.computerName
  | .other => none

/-- Accessor for `sysprep.GuiUnattended.AutoLogonCount`, when the identity is sysprep. -/
def autoLogonCountOf (spec : CustomizationSpec) : Option Int :=
  match spec.identity with
  | .sysprep sp => some sp.guiUnattended.autoLogonCount
  | _ => none

/-- The specification handed to `vm.Customize`, when the run got that far. -/
def submittedOf : RunResult → Option CustomizationSpec
  | .submitted s => some s
  | _ => none

/-- All flags at their registered defaults. -/
def cmdBase : Customize :=
  { alc := 0, pfxBase := "", tz := "", domain := "", hostName := "",
    mac := [], ip := [], gateway := [], netmask := [], dnsserver := [], kind := "Linux" }

/-- A manager that knows no specification. -/
def mgrNone : SpecManager :=
  { doesExist := fun _ => .ok false, getSpec := fun _ => .error "unreachable" }

/-- A stored specification with a Linux-prep identity and one adapter slot. -/
def specOneNic : CustomizationSpec :=
  { identity := .linuxPrep { hostName := some .vmName, domain := "", timeZone := "" }
    globalIPSettings := { dnsServerList := [] }
    nicSettingMap := [freshNic] }

/-- A manager holding `specOneNic` under every name. -/
def mgrOneNic : SpecManager :=
  { doesExist := fun _ => .ok true, getSpec := fun _ => .ok ⟨specOneNic⟩ }

/-- A stored specification whose identity is neither sysprep nor Linux-prep. -/
def specOther : CustomizationSpec :=
  { identity := .other
    globalIPSettings := { dnsServerList := [] }
    nicSettingMap := [] }

/-- A manager holding `specOther` under every name. -/
def mgrOther : SpecManager :=
  { doesExist := fun _ => .ok true, getSpec := fun _ => .ok ⟨specOther⟩ }

/-- The fresh specification built for `-type Linux` with no `-ip` values. -/
def specLinuxFresh : CustomizationSpec :=
  { identity := .linuxPrep { hostName := some .vmName, domain := "", timeZone := "" }
    globalIPSettings := { dnsServerList := [] }
    nicSettingMap := [] }

/-- The fresh specification built for `-type Windows` with no `-ip` values. -/
def specWindowsFresh : CustomizationSpec :=
  { identity := .sysprep
      { guiUnattended := { autoLogon := false, autoLogonCount := 0, timeZone := 0 }
        userData := { computerName := some .vmName }
        identification := { joinDomain := "" } }
    globalIPSettings := { dnsServerList := [] }
    nicSettingMap := [] }

theorem strData_append (a b : String) : (a ++ b).data = a.data ++ b.data := by
  cases a; cases b; rfl

theorem notExistMsg_contains (name : String) : containsSub (notExistMsg name) name := by
  exact ⟨"specification \"".data, "\" does not exist".data, by
    simp [notExistMsg, strData_append, List.append_assoc]⟩

theorem tzErrMsg_contains (tz : String) : containsSub (tzErrMsg tz) tz := by
  exact ⟨"converting -tz=\"".data, "\": invalid 32-bit hex value".data, by
    simp [tzErrMsg, strData_append, List.append_assoc]⟩

theorem ipCountMsg_contains (n : Nat) (name : String) (slots : Nat) :
    containsSub (ipCountMsg n name slots) (toString n)
    ∧ containsSub (ipCountMsg n name slots) name
    ∧ containsSub (ipCountMsg n name slots) (toString slots) := by
  refine ⟨⟨[], (" -ip specified, spec \"" ++ name ++ "\" has " ++ toString slots).data, ?_⟩,
    ⟨(toString n ++ " -ip specified, spec \"").data, ("\" has " ++ toString slots).data, ?_⟩,
    ⟨(toString n ++ " -ip specified, spec \"" ++ name ++ "\" has ").data, [], ?_⟩⟩ <;>
  simp [ipCountMsg, strData_append, List.append_assoc]

theorem withLinprep_ok_nics {s : CustomizationSpec} {f : LinuxPrep → LinuxPrep}
    {s' : CustomizationSpec} (h : withLinprep s f = .ok s') :
    s'.nicSettingMap = s.nicSettingMap := by
  unfold withLinprep at h
  cases hid : s.identity <;> rw [hid] at h <;> first | (cases h; rfl) | simp_all

theorem withSysprep_ok_nics {s : CustomizationSpec} {f : Sysprep → Sysprep}
    {s' : CustomizationSpec} (h : withSysprep s f = .ok s') :
    s'.nicSettingMap = s.nicSettingMap := by
  unfold withSysprep at h
  cases hid : s.identity <;> rw [hid] at h <;> first | (cases h; rfl) | simp_all

theorem applyGlobalDns_nics (cmd : Customize) (w : Bool) (s : CustomizationSpec) :
    (applyGlobalDns cmd w s).nicSettingMap = s.nicSettingMap := by
  unfold applyGlobalDns; split <;> simp_all
  split <;> simp_all

theorem applyGlobalDns_identity (cmd : Customize) (w : Bool) (s : CustomizationSpec) :
    (applyGlobalDns cmd w s).identity = s.identity := by
  unfold applyGlobalDns; split <;> simp_all
  split <;> simp_all

theorem applyDomain_ok_nics {cmd : Customize} {w : Bool} {s s' : CustomizationSpec}
    (h : applyDomain cmd w s = .ok s') : s'.nicSettingMap = s.nicSettingMap := by
  unfold applyDomain at h
  split at h
  · cases h; rfl
  · split at h
    · exact withSysprep_ok_nics h
    · exact withLinprep_ok_nics h

theorem applyPfx_ok_nics {cmd : Customize} {w : Bool} {s s' : CustomizationSpec}
    (h : applyPfx cmd w s = .ok s') : s'.nicSettingMap = s.nicSettingMap := by
  unfold applyPfx at h
  split at h
  · cases h; rfl
  · split at h
    · exact withSysprep_ok_nics h
    · exact withLinprep_ok_nics h

theorem applyHost_ok_nics {cmd : Customize} {w : Bool} {s s' : CustomizationSpec}
    (h : applyHost cmd w s = .ok s') : s'.nicSettingMap = s.nicSettingMap := by
  unfold applyHost at h
  split at h
  · cases h; rfl
  · split at h
    · exact withSysprep_ok_nics h
    · exact withLinprep_ok_nics h

theorem applyAutoLogon_ok_nics {cmd : Customize} {w : Bool} {s s' : CustomizationSpec}
    (h : applyAutoLogon cmd w s = .ok s') : s'.nicSettingMap = s.nicSettingMap := by
  unfold applyAutoLogon at h
  split at h
  · split at h
    · simp_all
    · exact withSysprep_ok_nics h
  · cases h; rfl

theorem applyTz_ok_nics {cmd : Customize} {w : Bool} {s s' : CustomizationSpec}
    (h : applyTz cmd w s = .ok s') : s'.nicSettingMap = s.nicSettingMap := by
  unfold applyTz at h
  split at h
  · cases h; rfl
  · split at h
    · split at h
      · simp_all
      · exact withSysprep_ok_nics h
    · exact withLinprep_ok_nics h

theorem applyMid_ok_nics {cmd : Customize} {w : Bool} {s s' : CustomizationSpec}
    (h : applyMid cmd w s = .ok s') : s'.nicSettingMap = s.nicSettingMap := by
  unfold applyMid at h
  cases h1 : applyDomain cmd w s with
  | error f => simp only [h1] at h; exact absurd h (by simp)
  | ok s1 =>
    simp only [h1] at h
    cases h3 : applyPfx cmd w (applyGlobalDns cmd w s1) with
    | error f => simp only [h3] at h; exact absurd h (by simp)
    | ok s3 =>
      simp only [h3] at h
      cases h4 : applyHost cmd w s3 with
      | error f => simp only [h4] at h; exact absurd h (by simp)
      | ok s4 =>
        simp only [h4] at h
        cases h5 : applyAutoLogon cmd w s4 with
        | error f => simp only [h5] at h; exact absurd h (by simp)
        | ok s5 =>
          simp only [h5] at h
          calc s'.nicSettingMap = s5.nicSettingMap := applyTz_ok_nics h
            _ = s4.nicSettingMap := applyAutoLogon_ok_nics h5
            _ = s3.nicSettingMap := applyHost_ok_nics h4
            _ = (applyGlobalDns cmd w s1).nicSettingMap := applyPfx_ok_nics h3
            _ = s1.nicSettingMap := applyGlobalDns_nics cmd w s1
            _ = s.nicSettingMap := applyDomain_ok_nics h1

theorem toResult_ne_submitted (f : Failure) (s : CustomizationSpec) :
    f.toResult ≠ .submitted s := by
  cases f <;> simp [Failure.toResult]

theorem validateIpCount_ok {cmd : Customize} {name : String} {spec : CustomizationSpec}
    (hip : cmd.ip.length ≤ spec.nicSettingMap.length) :
    validateIpCount cmd name spec = .ok spec := by
  unfold validateIpCount
  rw [if_neg (Nat.not_lt.mpr hip)]

theorem run_eq_ipCountErr {cmd : Customize} {name : String} {m : SpecManager}
    {spec : CustomizationSpec}
    (hres : resolveSpec cmd name m = .ok spec)
    (hgt : spec.nicSettingMap.length < cmd.ip.length) :
    run .vmFound cmd name m
      = .err (ipCountMsg cmd.ip.length name spec.nicSettingMap.length) := by
  simp only [run, runSpecPipeline, hres, validateIpCount, if_pos hgt]
  rfl

theorem runPipeline_eq_applyFlags {cmd : Customize} {name : String} {m : SpecManager}
    {spec : CustomizationSpec}
    (hres : resolveSpec cmd name m = .ok spec)
    (hip : cmd.ip.length ≤ spec.nicSettingMap.length) :
    runSpecPipeline cmd name m = applyFlags cmd spec := by
  simp only [runSpecPipeline, hres, validateIpCount_ok hip]

theorem run_eq_toResult_of_applyMid_err {cmd : Customize} {name : String}
    {m : SpecManager} {spec : CustomizationSpec} {f : Failure}
    (hres : resolveSpec cmd name m = .ok spec)
    (hip : cmd.ip.length ≤ spec.nicSettingMap.length)
    (hmid : applyMid cmd (isWindows spec) spec = .error f) :
    run .vmFound cmd name m = f.toResult := by
  simp only [run, runPipeline_eq_applyFlags hres hip, applyFlags, hmid, Except.map]

theorem run_submitted_decomp {cmd : Customize} {name : String} {m : SpecManager}
    {final : CustomizationSpec}
    (h : run .vmFound cmd name m = .submitted final) :
    ∃ spec spec', resolveSpec cmd name m = Except.ok spec
      ∧ cmd.ip.length ≤ spec.nicSettingMap.length
      ∧ applyMid cmd (isWindows spec) spec = Except.ok spec'
      ∧ final = applyNics cmd (isWindows spec) spec' := by
  simp only [run] at h
  cases hpipe : runSpecPipeline cmd name m with
  | error f =>
    rw [hpipe] at h
    exact absurd h (toResult_ne_submitted f final)
  | ok sfin =>
    rw [hpipe] at h
    have hfin : sfin = final := by simpa using h
    subst hfin
    unfold runSpecPipeline at hpipe
    cases hres : resolveSpec cmd name m with
    | error f => rw [hres] at hpipe; exact absurd hpipe (by simp)
    | ok spec =>
      simp only [hres] at hpipe
      by_cases hlt : spec.nicSettingMap.length < cmd.ip.length
      · simp only [validateIpCount, if_pos hlt] at hpipe
        exact absurd hpipe (by simp)
      · have hip : cmd.ip.length ≤ spec.nicSettingMap.length := Nat.not_lt.mp hlt
        simp only [validateIpCount_ok hip, applyFlags] at hpipe
        cases hmid : applyMid cmd (isWindows spec) spec with
        | error f =>
          simp only [hmid, Except.map] at hpipe
          exact absurd hpipe (by simp)
        | ok spec' =>
          simp only [hmid, Except.map] at hpipe
          refine ⟨spec, spec', rfl, hip, hmid, ?_⟩
          simpa using hpipe.symm

theorem applyAutoLogon_nonwin_err {cmd : Customize} {s : CustomizationSpec}
    (ha : cmd.alc ≠ 0) :
    applyAutoLogon cmd false s = .error (.err "option '-auto-login' is Windows only") := by
  simp [applyAutoLogon, ha]

theorem applyTz_win_parse_err {cmd : Customize} {s : CustomizationSpec}
    (htz : cmd.tz ≠ "") (hp : parseHex32 cmd.tz = none) :
    applyTz cmd true s = .error (.err (tzErrMsg cmd.tz)) := by
  simp [applyTz, htz, hp]

theorem applyMid_false_alc_err {cmd : Customize} {s : CustomizationSpec}
    (ha : cmd.alc ≠ 0) :
    ∃ f, applyMid cmd false s = .error f := by
  cases h1 : applyDomain cmd false s with
  | error f => exact ⟨f, by simp only [applyMid, h1]⟩
  | ok s1 =>
    cases h3 : applyPfx cmd false (applyGlobalDns cmd false s1) with
    | error f => exact ⟨f, by simp only [applyMid, h1, h3]⟩
    | ok s3 =>
      cases h4 : applyHost cmd false s3 with
      | error f => exact ⟨f, by simp only [applyMid, h1, h3, h4]⟩
      | ok s4 =>
        exact ⟨.err "option '-auto-login' is Windows only",
          by simp only [applyMid, h1, h3, h4, applyAutoLogon_nonwin_err ha]⟩

theorem applyMid_true_tz_err {cmd : Customize} {s : CustomizationSpec}
    (htz : cmd.tz ≠ "") (hp : parseHex32 cmd.tz = none) :
    ∃ f, applyMid cmd true s = .error f := by
  cases h1 : applyDomain cmd true s with
  | error f => exact ⟨f, by simp only [applyMid, h1]⟩
  | ok s1 =>
    cases h3 : applyPfx cmd true (applyGlobalDns cmd true s1) with
    | error f => exact ⟨f, by simp only [applyMid, h1, h3]⟩
    | ok s3 =>
      cases h4 : applyHost cmd true s3 with
      | error f => exact ⟨f, by simp only [applyMid, h1, h3, h4]⟩
      | ok s4 =>
        cases h5 : applyAutoLogon cmd true s4 with
        | error f => exact ⟨f, by simp only [applyMid, h1, h3, h4, h5]⟩
        | ok s5 =>
          exact ⟨.err (tzErrMsg cmd.tz),
            by simp only [applyMid, h1, h3, h4, h5, applyTz_win_parse_err htz hp]⟩

theorem applyNicsAux_length (cmd : Customize) (w : Bool) :
    ∀ (ips : List String) (i : Nat) (nics : List AdapterMapping),
      (applyNicsAux cmd w i ips nics).length = nics.length := by
  intro ips
  induction ips with
  | nil => intro i nics; rfl
  | cons ip ips ih =>
    intro i nics
    cases nics with
    | nil => rfl
    | cons nic nics => simp [applyNicsAux, ih]

theorem applyNicsAux_getElem_lt (cmd : Customize) (w : Bool) :
    ∀ (ips : List String) (i : Nat) (nics : List AdapterMapping) (j : Nat),
      j < ips.length → j < nics.length →
      (applyNicsAux cmd w i ips nics)[j]?
        = some (applyNic cmd w (i + j) (ips.getD j "") (nics.getD j freshNic)) := by
  intro ips
  induction ips with
  | nil => intro i nics j hj _; simp at hj
  | cons ip ips ih =>
    intro i nics j hj hn
    cases nics with
    | nil => simp at hn
    | cons nic nics =>
      cases j with
      | zero => simp [applyNicsAux]
      | succ j =>
        have harith : i + (j + 1) = (i + 1) + j := by omega
        simp only [applyNicsAux, List.getElem?_cons_succ, List.getD_cons_succ, harith]
        exact ih (i + 1) nics j (by simpa using hj) (by simpa using hn)

theorem applyNicsAux_getElem_ge (cmd : Customize) (w : Bool) :
    ∀ (ips : List String) (i : Nat) (nics : List AdapterMapping) (j : Nat),
      ips.length ≤ j →
      (applyNicsAux cmd w i ips nics)[j]? = nics[j]? := by
  intro ips
  induction ips with
  | nil => intro i nics j _; rfl
  | cons ip ips ih =>
    intro i nics j hj
    cases nics with
    | nil => simp [applyNicsAux]
    | cons nic nics =>
      cases j with
      | zero => simp at hj
      | succ j =>
        simp only [applyNicsAux, List.getElem?_cons_succ]
        exact ih (i + 1) nics j (by simpa using hj)

/-- C1: if the number of `-ip` values exceeds the adapter slots of the resolved
specification, the command fails before any adapter mutation or submission with
an error containing both counts and the spec name; otherwise any submitted
specification has exactly the first `min(len(ip), slots) = len(ip)` adapters
rewritten by the loop body and the remaining adapters untouched. -/
theorem c1_ip_count_validation (cmd : Customize) (name : String) (m : SpecManager)
    (spec : CustomizationSpec) (hres : resolveSpec cmd name m = Except.ok spec) :
    (spec.nicSettingMap.length < cmd.ip.length →
      run .vmFound cmd name m
        = .err (ipCountMsg cmd.ip.length name spec.nicSettingMap.length)
      ∧ containsSub (ipCountMsg cmd.ip.length name spec.nicSettingMap.length)
          (toString cmd.ip.length)
      ∧ containsSub (ipCountMsg cmd.ip.length name spec.nicSettingMap.length) name
      ∧ containsSub (ipCountMsg cmd.ip.length name spec.nicSettingMap.length)
          (toString spec.nicSettingMap.length))
    ∧ (∀ final, run .vmFound cmd name m = .submitted final →
        cmd.ip.length ≤ spec.nicSettingMap.length
        ∧ final.nicSettingMap.length = spec.nicSettingMap.length
        ∧ min cmd.ip.length spec.nicSettingMap.length = cmd.ip.length
        ∧ (∀ j, j < cmd.ip.length →
            final.nicSettingMap[j]?
              = some (applyNic cmd (isWindows spec) j (cmd.ip.getD j "")
                  (spec.nicSettingMap.getD j freshNic)))
        ∧ (∀ j, cmd.ip.length ≤ j →
            final.nicSettingMap[j]? = spec.nicSettingMap[j]?)) := by
  constructor
  · intro hgt
    exact ⟨run_eq_ipCountErr hres hgt, (ipCountMsg_contains _ _ _).1,
      (ipCountMsg_contains _ _ _).2.1, (ipCountMsg_contains _ _ _).2.2⟩
  · intro final hrun
    obtain ⟨spec0, spec', hres0, hip, hmid, hfin⟩ := run_submitted_decomp hrun
    rw [hres] at hres0
    have hspec : spec0 = spec := by simpa using hres0.symm
    subst hfin
    rw [hspec] at hip hmid ⊢
    have hnics : spec'.nicSettingMap = spec.nicSettingMap := applyMid_ok_nics hmid
    refine ⟨hip, ?_, Nat.min_eq_left hip, ?_, ?_⟩
    · simp [applyNics, applyNicsAux_length, hnics]
    · intro j hj
      have hj2 : j < spec.nicSettingMap.length := lt_of_lt_of_le hj hip
      have hget := applyNicsAux_getElem_lt cmd (isWindows spec) cmd.ip 0
        spec.nicSettingMap j hj hj2
      simp only [Nat.zero_add] at hget
      simp only [applyNics]
      rw [hnics]
      exact hget
    · intro j hj
      have hget := applyNicsAux_getElem_ge cmd (isWindows spec) cmd.ip 0
        spec.nicSettingMap j hj
      simp only [applyNics]
      rw [hnics]
      exact hget

theorem c1_witness :
    resolveSpec { cmdBase with ip := ["10.0.0.1", "10.0.0.2"] } "db" mgrOneNic
      = Except.ok specOneNic
    ∧ run .vmFound { cmdBase with ip := ["10.0.0.1", "10.0.0.2"] } "db" mgrOneNic
      = .err (ipCountMsg 2 "db" 1) :=
  ⟨by rfl,
    ((c1_ip_count_validation { cmdBase with ip := ["10.0.0.1", "10.0.0.2"] } "db"
        mgrOneNic specOneNic (by rfl)).1 (by decide)).1⟩

/-- C2: with no NAME argument, the fresh specification has one adapter slot per
`-ip` value; `-type Linux` (the default) yields the Linux-prep identity,
`-type Windows` the sysprep identity, and any other value a usage error with
no specification resolved or submitted. -/
theorem c2_fresh_spec_identity (cmd : Customize) (m : SpecManager) :
    (cmd.kind = "Linux" →
      resolveSpec cmd "" m = Except.ok
        { identity := .linuxPrep { hostName := some .vmName, domain := "", timeZone := "" }
          globalIPSettings := { dnsServerList := [] }
          nicSettingMap := List.replicate cmd.ip.length freshNic })
    ∧ (cmd.kind = "Windows" →
      resolveSpec cmd "" m = Except.ok
        { identity := .sysprep
            { guiUnattended := { autoLogon := false, autoLogonCount := 0, timeZone := 0 }
              userData := { computerName := some .vmName }
              identification := { joinDomain := "" } }
          globalIPSettings := { dnsServerList := [] }
          nicSettingMap := List.replicate cmd.ip.length freshNic })
    ∧ (∀ spec, resolveSpec cmd "" m = Except.ok spec →
        spec.nicSettingMap.length = cmd.ip.length)
    ∧ (cmd.kind ≠ "Linux" → cmd.kind ≠ "Windows" →
        resolveSpec cmd "" m = Except.error .help ∧ run .vmFound cmd "" m = .help) := by
  refine ⟨?_, ?_, ?_, ?_⟩
  · intro h; simp [resolveSpec, h]
  · intro h; simp [resolveSpec, h]
  · intro spec h
    unfold resolveSpec at h
    rw [if_pos rfl] at h
    split at h <;>
      first
        | (exfalso; simp at h; done)
        | (simp at h; rw [← h]; simp)
  · intro h1 h2
    have hr : resolveSpec cmd "" m = Except.error .help := by
      unfold resolveSpec
      rw [if_pos rfl]
      split <;> simp_all
    have hp : runSpecPipeline cmd "" m = Except.error .help := by
      simp [runSpecPipeline, hr]
    exact ⟨hr, by simp [run, hp, Failure.toResult]⟩

theorem c2_witness :
    resolveSpec { cmdBase with kind := "Solaris" } "" mgrNone = Except.error .help
    ∧ run .vmFound { cmdBase with kind := "Solaris" } "" mgrNone = .help :=
  (c2_fresh_spec_identity { cmdBase with kind := "Solaris" } mgrNone).2.2.2
    (by decide) (by decide)

/-- C6: the loop body sets the adapter's address generator to the DHCP
generator (which stores no IP literal) exactly when the `-ip` value is the
literal string "dhcp", and to a fixed-address generator storing exactly the
given string otherwise. -/
theorem c6_address_generator (cmd : Customize) (w : Bool) (i : Nat) (ip : String)
    (nic : AdapterMapping) :
    (ip = "dhcp" → (applyNic cmd w i ip nic).adapter.ip = some IpGen.dhcp)
    ∧ (ip ≠ "dhcp" → (applyNic cmd w i ip nic).adapter.ip = some (IpGen.fixedIp ip)) := by
  constructor <;> intro h <;>
    by_cases h1 : i < cmd.netmask.length <;>
    by_cases h2 : i < cmd.mac.length <;>
    by_cases h3 : i < cmd.gateway.length <;>
    by_cases h4 : i < cmd.dnsserver.length <;>
    cases w <;>
    simp [applyNic, h, h1, h2, h3, h4]

theorem c6_witness :
    (applyNic cmdBase false 0 "dhcp" freshNic).adapter.ip = some IpGen.dhcp
    ∧ (applyNic cmdBase false 0 "10.0.0.5" freshNic).adapter.ip
        = some (IpGen.fixedIp "10.0.0.5") :=
  ⟨(c6_address_generator cmdBase false 0 "dhcp" freshNic).1 (by decide),
    (c6_address_generator cmdBase false 0 "10.0.0.5" freshNic).2 (by decide)⟩

/-- C7: with a NAME argument, a manager lookup error is propagated unchanged,
and a missing specification fails with an error containing the name, in both
cases without reaching any mutation or the submission step. -/
theorem c7_named_lookup (cmd : Customize) (name : String) (m : SpecManager)
    (hname : name ≠ "") :
    (∀ e, m.doesExist name = .error e → run .vmFound cmd name m = .err e)
    ∧ (m.doesExist name = .ok false →
        run .vmFound cmd name m = .err (notExistMsg name)
        ∧ containsSub (notExistMsg name) name)
    ∧ (∀ e, m.doesExist name = .ok true → m.getSpec name = .error e →
        run .vmFound cmd name m = .err e) := by
  refine ⟨?_, ?_, ?_⟩
  · intro e he
    have hr : resolveSpec cmd name m = Except.error (.err e) := by
      simp [resolveSpec, hname, he]
    simp [run, runSpecPipeline, hr, Failure.toResult]
  · intro he
    have hr : resolveSpec cmd name m = Except.error (.err (notExistMsg name)) := by
      simp [resolveSpec, hname, he]
    exact ⟨by simp [run, runSpecPipeline, hr, Failure.toResult],
      notExistMsg_contains name⟩
  · intro e he hg
    have hr : resolveSpec cmd name m = Except.error (.err e) := by
      simp [resolveSpec, hname, he, hg]
    simp [run, runSpecPipeline, hr, Failure.toResult]

theorem c7_witness :
    run .vmFound cmdBase "ghost" mgrNone = .err (notExistMsg "ghost") :=
  ((c7_named_lookup cmdBase "ghost" mgrNone (by decide)).2.1 (by rfl)).1

/-- C8: the loop body copies the netmask, MAC address, and comma-split gateway
entry at index `i` onto adapter `i` exactly when the corresponding option list
has an entry at `i`, and otherwise leaves that adapter field unchanged. -/
theorem c8_positional_fields (cmd : Customize) (w : Bool) (i : Nat) (ip : String)
    (nic : AdapterMapping) :
    (i < cmd.netmask.length →
      (applyNic cmd w i ip nic).adapter.subnetMask = cmd.netmask.getD i "")
    ∧ (cmd.netmask.length ≤ i →
      (applyNic cmd w i ip nic).adapter.subnetMask = nic.adapter.subnetMask)
    ∧ (i < cmd.mac.length →
      (applyNic cmd w i ip nic).macAddress = cmd.mac.getD i "")
    ∧ (cmd.mac.length ≤ i →
      (applyNic cmd w i ip nic).macAddress = nic.macAddress)
    ∧ (i < cmd.gateway.length →
      (applyNic cmd w i ip nic).adapter.gateway = (cmd.gateway.getD i "").splitOn ",")
    ∧ (cmd.gateway.length ≤ i →
      (applyNic cmd w i ip nic).adapter.gateway = nic.adapter.gateway) := by
  refine ⟨?_, ?_, ?_, ?_, ?_, ?_⟩ <;> intro h <;>
    by_cases h1 : i < cmd.netmask.length <;>
    by_cases h2 : i < cmd.mac.length <;>
    by_cases h3 : i < cmd.gateway.length <;>
    by_cases h4 : i < cmd.dnsserver.length <;>
    cases w <;>
    first
      | (exact absurd h h1)
      | (exact absurd h h2)
      | (exact absurd h h3)
      | (exact absurd h1 (Nat.not_lt.mpr h))
      | (exact absurd h2 (Nat.not_lt.mpr h))
      | (exact absurd h3 (Nat.not_lt.mpr h))
      | simp [applyNic, h1, h2, h3, h4]

theorem c8_witness :
    (applyNic { cmdBase with netmask := ["255.255.255.0"] } false 0 "10.0.0.5" freshNic).adapter.subnetMask
      = ({ cmdBase with netmask := ["255.255.255.0"] } : Customize).netmask.getD 0 ""
    ∧ (applyNic cmdBase false 0 "10.0.0.5" freshNic).macAddress = freshNic.macAddress :=
  ⟨(c8_positional_fields { cmdBase with netmask := ["255.255.255.0"] } false 0
      "10.0.0.5" freshNic).1 (by decide),
    (c8_positional_fields cmdBase false 0 "10.0.0.5" freshNic).2.2.2.1 (by decide)⟩

theorem foldl_append_splitOn (l : List String) :
    ∀ init : List String,
      l.foldl (fun acc s => acc ++ s.splitOn ",") init
        = init ++ (l.map fun s => s.splitOn ",").flatten := by
  induction l with
  | nil => intro init; simp
  | cons a l ih => intro init; simp [ih, List.append_assoc]

/-- C3: `-dns-server` values, comma-split, are appended to the global DNS list
only for a non-Windows identity, with no per-adapter DNS written by the loop
body; for a Windows identity the global list is untouched and the loop body
writes the per-adapter DNS list exactly at indices with a `-dns-server`
entry. -/
theorem c3_dns_server_asymmetry (cmd : Customize) (spec : CustomizationSpec) :
    (isWindows spec = false → cmd.dnsserver ≠ [] →
      (applyGlobalDns cmd (isWindows spec) spec).globalIPSettings.dnsServerList
        = spec.globalIPSettings.dnsServerList
            ++ (cmd.dnsserver.map fun s => s.splitOn ",").flatten
      ∧ (applyGlobalDns cmd (isWindows spec) spec).nicSettingMap = spec.nicSettingMap
      ∧ (∀ i ip nic, (applyNic cmd (isWindows spec) i ip nic).adapter.dnsServerList
          = nic.adapter.dnsServerList))
    ∧ (isWindows spec = true →
      applyGlobalDns cmd (isWindows spec) spec = spec
      ∧ (∀ i ip nic, i < cmd.dnsserver.length →
          (applyNic cmd (isWindows spec) i ip nic).adapter.dnsServerList
            = (cmd.dnsserver.getD i "").splitOn ",")
      ∧ (∀ i ip nic, cmd.dnsserver.length ≤ i →
          (applyNic cmd (isWindows spec) i ip nic).adapter.dnsServerList
            = nic.adapter.dnsServerList)) := by
  constructor
  · intro hw hd
    rw [hw]
    have hlen : cmd.dnsserver.length ≠ 0 := by simpa using hd
    refine ⟨?_, applyGlobalDns_nics cmd false spec, ?_⟩
    · simp [applyGlobalDns, hlen, foldl_append_splitOn]
    · intro i ip nic
      by_cases h1 : i < cmd.netmask.length <;>
      by_cases h2 : i < cmd.mac.length <;>
      by_cases h3 : i < cmd.gateway.length <;>
      simp [applyNic, h1, h2, h3]
  · intro hw
    rw [hw]
    refine ⟨?_, ?_, ?_⟩
    · unfold applyGlobalDns
      split <;> simp
    · intro i ip nic hi
      by_cases h1 : i < cmd.netmask.length <;>
      by_cases h2 : i < cmd.mac.length <;>
      by_cases h3 : i < cmd.gateway.length <;>
      simp [applyNic, h1, h2, h3, hi]
    · intro i ip nic hi
      have hi' : ¬ i < cmd.dnsserver.length := Nat.not_lt.mpr hi
      by_cases h1 : i < cmd.netmask.length <;>
      by_cases h2 : i < cmd.mac.length <;>
      by_cases h3 : i < cmd.gateway.length <;>
      simp [applyNic, h1, h2, h3, hi']

theorem c3_witness :
    (applyGlobalDns { cmdBase with dnsserver := ["8.8.8.8,8.8.4.4"] }
        (isWindows specLinuxFresh) specLinuxFresh).globalIPSettings.dnsServerList
      = specLinuxFresh.globalIPSettings.dnsServerList
          ++ ((["8.8.8.8,8.8.4.4"] : List String).map fun s => s.splitOn ",").flatten :=
  ((c3_dns_server_asymmetry { cmdBase with dnsserver := ["8.8.8.8,8.8.4.4"] }
      specLinuxFresh).1 (by rfl) (by decide)).1

/-- C4 (amended): a nonzero `-auto-login` against a non-Windows resolved
identity fails with the explicit "Windows only" error and the command never
reaches submission; with the Windows identity it sets `AutoLogon` to true and
`AutoLogonCount` to the supplied value truncated to a signed 32-bit integer,
which equals the supplied value whenever that value fits in `int32`. -/
theorem c4_auto_logon_windows_only (cmd : Customize) (name : String)
    (m : SpecManager) (spec : CustomizationSpec)
    (hres : resolveSpec cmd name m = Except.ok spec) (ha : cmd.alc ≠ 0) :
    (isWindows spec = false →
      applyAutoLogon cmd (isWindows spec) spec
        = .error (.err "option '-auto-login' is Windows only")
      ∧ ∀ sf, run .vmFound cmd name m ≠ .submitted sf)
    ∧ (∀ sp, spec.identity = .sysprep sp →
      applyAutoLogon cmd (isWindows spec) spec
        = .ok { spec with identity := Identity.sysprep { sp with
            guiUnattended := { sp.guiUnattended with
              autoLogon := true, autoLogonCount := toInt32 cmd.alc } } })
    ∧ (-2147483648 ≤ cmd.alc → cmd.alc ≤ 2147483647 → toInt32 cmd.alc = cmd.alc) := by
  refine ⟨?_, ?_, ?_⟩
  · intro hw
    rw [hw]
    refine ⟨applyAutoLogon_nonwin_err ha, ?_⟩
    intro sf hrun
    obtain ⟨spec0, spec', hres0, hip, hmid, _⟩ := run_submitted_decomp hrun
    rw [hres] at hres0
    have hspec : spec0 = spec := by simpa using hres0.symm
    rw [hspec, hw] at hmid
    obtain ⟨f, hf⟩ := @applyMid_false_alc_err cmd spec ha
    rw [hf] at hmid
    exact absurd hmid (by simp)
  · intro sp hsp
    have hw : isWindows spec = true := by simp [isWindows, hsp]
    rw [hw]
    simp [applyAutoLogon, ha, withSysprep, hsp]
  · intro hlo hhi
    simp only [toInt32]
    split <;> omega

theorem c4_witness :
    applyAutoLogon { cmdBase with alc := 3 } (isWindows specLinuxFresh) specLinuxFresh
      = .error (.err "option '-auto-login' is Windows only") :=
  ((c4_auto_logon_windows_only { cmdBase with alc := 3 } "" mgrNone specLinuxFresh
      (by rfl) (by decide)).1 (by rfl)).1

/-- C4 counterexample: `-type Windows -auto-login 2147483648` submits a
specification whose `AutoLogonCount` is `-2147483648`, not the supplied value:
the code stores `int32(cmd.alc)`, which truncates. -/
theorem c4_counterexample :
    Option.bind
        (submittedOf (run .vmFound { cmdBase with kind := "Windows", alc := 2147483648 }
          "" mgrNone))
        autoLogonCountOf
      = some (-2147483648)
    ∧ ({ cmdBase with kind := "Windows", alc := 2147483648 } : Customize).alc
        = 2147483648
    ∧ ¬ (-2147483648 : Int) = 2147483648 :=
  ⟨by rfl, by rfl, by decide⟩

/-- C5: a non-empty `-tz` against the Windows identity is parsed as a signed
base-16 32-bit integer — a malformed value fails with a descriptive error
naming the value and the command never submits, while a well-formed value is
stored as the sysprep timezone index; against the Linux identity the value is
stored verbatim with no parsing. -/
theorem c5_timezone (cmd : Customize) (name : String) (m : SpecManager)
    (spec : CustomizationSpec) (hres : resolveSpec cmd name m = Except.ok spec)
    (htz : cmd.tz ≠ "") :
    (isWindows spec = true → parseHex32 cmd.tz = none →
      applyTz cmd (isWindows spec) spec = .error (.err (tzErrMsg cmd.tz))
      ∧ containsSub (tzErrMsg cmd.tz) cmd.tz
      ∧ ∀ sf, run .vmFound cmd name m ≠ .submitted sf)
    ∧ (∀ v sp, parseHex32 cmd.tz = some v → spec.identity = .sysprep sp →
      applyTz cmd (isWindows spec) spec
        = .ok { spec with identity := Identity.sysprep { sp with
            guiUnattended := { sp.guiUnattended with timeZone := v } } })
    ∧ (∀ lp, spec.identity = .linuxPrep lp →
      applyTz cmd (isWindows spec) spec
        = .ok { spec with identity := Identity.linuxPrep { lp with
            timeZone := cmd.tz } }) := by
  refine ⟨?_, ?_, ?_⟩
  · intro hw hp
    rw [hw]
    refine ⟨applyTz_win_parse_err htz hp, tzErrMsg_contains cmd.tz, ?_⟩
    intro sf hrun
    obtain ⟨spec0, spec', hres0, hip, hmid, _⟩ := run_submitted_decomp hrun
    rw [hres] at hres0
    have hspec : spec0 = spec := by simpa using hres0.symm
    rw [hspec, hw] at hmid
    obtain ⟨f, hf⟩ := @applyMid_true_tz_err cmd spec htz hp
    rw [hf] at hmid
    exact absurd hmid (by simp)
  · intro v sp hv hsp
    have hw : isWindows spec = true := by simp [isWindows, hsp]
    rw [hw]
    simp [applyTz, htz, hv, withSysprep, hsp]
  · intro lp hlp
    have hw : isWindows spec = false := by simp [isWindows, hlp]
    rw [hw]
    simp [applyTz, htz, withLinprep, hlp]

theorem c5_witness :
    applyTz { cmdBase with kind := "Windows", tz := "ZZZ" } (isWindows specWindowsFresh)
        specWindowsFresh
      = .error (.err (tzErrMsg "ZZZ")) :=
  ((c5_timezone { cmdBase with kind := "Windows", tz := "ZZZ" } "" mgrNone
      specWindowsFresh (by rfl) (by decide)).1 (by rfl) (by rfl)).1

/-- C9: for a resolved specification whose stored identity is neither the
sysprep nor the Linux-prep variant, each non-Windows settings branch
(`-domain`, `-prefix`, `-name`, and `-tz`) dereferences the nil `linprep`
pointer: the run ends in a nil-pointer panic instead of an error. -/
theorem c9_other_identity_nil_deref (cmd : Customize) (name : String)
    (m : SpecManager) (spec : CustomizationSpec)
    (hres : resolveSpec cmd name m = Except.ok spec)
    (hid : spec.identity = .other)
    (hip : cmd.ip.length ≤ spec.nicSettingMap.length) :
    (cmd.domain ≠ "" → run .vmFound cmd name m = .nilPanic)
    ∧ (cmd.domain = "" → cmd.pfxBase ≠ "" → run .vmFound cmd name m = .nilPanic)
    ∧ (cmd.domain = "" → cmd.pfxBase = "" → cmd.hostName ≠ "" →
        run .vmFound cmd name m = .nilPanic)
    ∧ (cmd.domain = "" → cmd.pfxBase = "" → cmd.hostName = "" → cmd.alc = 0 →
        cmd.tz ≠ "" → run .vmFound cmd name m = .nilPanic) := by
  have hw : isWindows spec = false := by simp [isWindows, hid]
  have hrun : applyMid cmd false spec = Except.error .nilPanic →
      run .vmFound cmd name m = RunResult.nilPanic := by
    intro hf
    exact run_eq_toResult_of_applyMid_err hres hip (by rw [hw]; exact hf)
  refine ⟨?_, ?_, ?_, ?_⟩
  · intro hdom
    have hd : applyDomain cmd false spec = .error .nilPanic := by
      simp [applyDomain, hdom, withLinprep, hid]
    exact hrun (by simp only [applyMid, hd])
  · intro hdom hpfx
    have hd : applyDomain cmd false spec = .ok spec := by simp [applyDomain, hdom]
    have hs1 : (applyGlobalDns cmd false spec).identity = .other := by
      rw [applyGlobalDns_identity]; exact hid
    have hp : applyPfx cmd false (applyGlobalDns cmd false spec) = .error .nilPanic := by
      simp [applyPfx, hpfx, withLinprep, hs1]
    exact hrun (by simp only [applyMid, hd, hp])
  · intro hdom hpfx hhost
    have hd : applyDomain cmd false spec = .ok spec := by simp [applyDomain, hdom]
    have hp : applyPfx cmd false (applyGlobalDns cmd false spec)
        = .ok (applyGlobalDns cmd false spec) := by simp [applyPfx, hpfx]
    have hs1 : (applyGlobalDns cmd false spec).identity = .other := by
      rw [applyGlobalDns_identity]; exact hid
    have hh : applyHost cmd false (applyGlobalDns cmd false spec) = .error .nilPanic := by
      simp [applyHost, hhost, withLinprep, hs1]
    exact hrun (by simp only [applyMid, hd, hp, hh])
  · intro hdom hpfx hhost halc htzne
    have hd : applyDomain cmd false spec = .ok spec := by simp [applyDomain, hdom]
    have hp : applyPfx cmd false (applyGlobalDns cmd false spec)
        = .ok (applyGlobalDns cmd false spec) := by simp [applyPfx, hpfx]
    have hh : applyHost cmd false (applyGlobalDns cmd false spec)
        = .ok (applyGlobalDns cmd false spec) := by simp [applyHost, hhost]
    have hal : applyAutoLogon cmd false (applyGlobalDns cmd false spec)
        = .ok (applyGlobalDns cmd false spec) := by simp [applyAutoLogon, halc]
    have hs1 : (applyGlobalDns cmd false spec).identity = .other := by
      rw [applyGlobalDns_identity]; exact hid
    have ht : applyTz cmd false (applyGlobalDns cmd false spec) = .error .nilPanic := by
      simp [applyTz, htzne, withLinprep, hs1]
    exact hrun (by simp only [applyMid, hd, hp, hh, hal, ht])

theorem c9_witness :
    run .vmFound { cmdBase with domain := "example.com" } "stored" mgrOther
      = .nilPanic :=
  (c9_other_identity_nil_deref { cmdBase with domain := "example.com" } "stored"
      mgrOther specOther (by rfl) (by rfl) (by decide)).1 (by decide)

/-- C10: when both `-prefix` and `-name` are non-empty, the prefix step
followed by the host step equals the host step alone — `-name` overwrites the
same hostname field, so the prefix value has no effect — and the resulting
hostname field holds the fixed-name generator. -/
theorem c10_fixed_name_overrides (cmd : Customize) (spec : CustomizationSpec)
    (hp : cmd.pfxBase ≠ "") (hh : cmd.hostName ≠ "")
    (hid : spec.identity ≠ .other) :
    Except.bind (applyPfx cmd (isWindows spec) spec) (applyHost cmd (isWindows spec))
      = applyHost cmd (isWindows spec) spec
    ∧ (∀ s', applyHost cmd (isWindows spec) spec = .ok s' →
        hostNameFieldOf s' = some (.fixedName cmd.hostName)) := by
  cases hcase : spec.identity with
  | other => exact absurd hcase hid
  | linuxPrep lp =>
    have hw : isWindows spec = false := by simp [isWindows, hcase]
    rw [hw]
    constructor
    · simp [applyPfx, applyHost, hp, hh, withLinprep, hcase, Except.bind]
    · intro s' hs'
      simp [applyHost, hh, withLinprep, hcase] at hs'
      rw [← hs']
      simp [hostNameFieldOf]
  | sysprep sp =>
    have hw : isWindows spec = true := by simp [isWindows, hcase]
    rw [hw]
    constructor
    · simp [applyPfx, applyHost, hp, hh, withSysprep, hcase, Except.bind]
    · intro s' hs'
      simp [applyHost, hh, withSysprep, hcase] at hs'
      rw [← hs']
      simp [hostNameFieldOf]

theorem c10_witness :
    Except.bind
        (applyPfx { cmdBase with pfxBase := "demo", hostName := "db01" }
          (isWindows specLinuxFresh) specLinuxFresh)
        (applyHost { cmdBase with pfxBase := "demo", hostName := "db01" }
          (isWindows specLinuxFresh))
      = applyHost { cmdBase with pfxBase := "demo", hostName := "db01" }
          (isWindows specLinuxFresh) specLinuxFresh :=
  (c10_fixed_name_overrides { cmdBase with pfxBase := "demo", hostName := "db01" }
      specLinuxFresh (by decide) (by decide) (by decide)).1
